import Mathlib

/-!
Verification development for the O1280 reduced-Gaussian-grid tooling
(grid topology, ring locator, grid sampler, reprojector, colormap,
synthetic field generators).

Conventions of the embedding:

* Python/numpy integer arithmetic is modelled with `Nat`/`Int` (all
  quantities involved stay far below 2^32, proved where relevant).
* Latitudes and longitudes are exact rationals *in units of pi*:
  a coordinate `q : Rat` stands for the angle `q * pi` radians.  Every
  angle the programs manipulate (ring latitudes, raster pixel centres,
  the boundary queries of the spec) is a rational multiple of pi, and
  all comparisons, floors and mods the code performs on such angles are
  scale-invariant, so this embedding is exact where the float code is
  approximate.
* Python `int(x)` (truncation toward zero) is `pyInt`; Python `%` on
  integers with a positive modulus is `Int.emod`.
-/

namespace Zero

/-- Grid resolution: O1280. -/
def N : ℕ := 1280

/-- Number of latitude rings, `2 * N = 2560`. -/
def NUM_RINGS : ℕ := 2 * N

/-- Distance of a ring from its nearest pole, counted from 1
(`i + 1` in the northern half, `NUM_RINGS - i` in the southern half);
from `ring_from_pole = ring + 1 if ring < N else NUM_RINGS - ring`. -/
def ring_from_pole (i : ℕ) : ℕ := if i < N then i + 1 else NUM_RINGS - i

/-- Number of grid points on ring `i`;
from `points_in_ring = 4 * ring_from_pole + 16`. -/
def points_in_ring (i : ℕ) : ℕ := 4 * ring_from_pole i + 16

/-- Exclusive prefix sum of the ring point counts: the flat offset at
which ring `i` starts. -/
def cum (i : ℕ) : ℕ := ((List.range i).map points_in_ring).sum

/-- The grid's total point count: 6,599,680 for O1280. -/
def totalPoints : ℕ := cum NUM_RINGS

/-- The offset table, translated line by line from
`generate_ring_offsets` (a forward pass keeping a running
`cumulative`, storing it before adding the ring's point count). -/
def generate_ring_offsets : List ℕ :=
  ((List.range NUM_RINGS).foldl
    (fun s i => (s.1 ++ [s.2], s.2 + points_in_ring i)) (([] : List ℕ), 0)).1

lemma cum_succ (i : ℕ) : cum (i + 1) = cum i + points_in_ring i := by
  simp [cum, List.range_succ]

lemma ring_offsets_fold (n : ℕ) :
    (List.range n).foldl
      (fun s i => (s.1 ++ [s.2], s.2 + points_in_ring i)) (([] : List ℕ), 0)
      = ((List.range n).map cum, cum n) := by
  induction n with
  | zero => simp [cum]
  | succ n ih =>
      rw [List.range_succ, List.foldl_append, ih]
      simp only [List.foldl_cons, List.foldl_nil, List.range_succ, List.map_append,
        List.map_cons, List.map_nil]
      rw [cum_succ]

lemma generate_ring_offsets_eq :
    generate_ring_offsets = (List.range NUM_RINGS).map cum := by
  unfold generate_ring_offsets
  rw [ring_offsets_fold]

lemma cum_zero : cum 0 = 0 := rfl

lemma cum_mono : Monotone cum := by
  apply monotone_nat_of_le_succ
  intro n
  rw [cum_succ]
  exact Nat.le_add_right _ _

lemma points_in_ring_north (i : ℕ) (h : i < N) : points_in_ring i = 4 * i + 20 := by
  simp only [points_in_ring, ring_from_pole, if_pos h]
  omega

lemma points_in_ring_south (k : ℕ) (h : k < N) :
    points_in_ring (N + k) + 4 * k = 4 * N + 16 := by
  have h1 : ¬ (N + k < N) := by omega
  have h2 : N + k ≤ NUM_RINGS := by simp only [NUM_RINGS]; omega
  simp only [points_in_ring, ring_from_pole, if_neg h1, NUM_RINGS]
  omega

lemma cum_north (i : ℕ) (h : i ≤ N) : cum i = 2 * i * i + 18 * i := by
  induction i with
  | zero => rfl
  | succ n ih =>
      have hn : n < N := h
      rw [cum_succ, ih (le_of_lt hn), points_in_ring_north n hn]
      ring

lemma cum_south (m : ℕ) (h : m ≤ N) :
    cum (N + m) + 2 * m * m = 2 * N * N + 18 * N + 4 * N * m + 18 * m := by
  induction m with
  | zero =>
      simpa using cum_north N le_rfl
  | succ k ih =>
      have hk : k < N := h
      have hpts := points_in_ring_south k hk
      have hprev := ih (le_of_lt hk)
      have hstep : N + (k + 1) = (N + k) + 1 := by ring
      rw [hstep, cum_succ]
      nlinarith [hprev, hpts]

lemma totalPoints_eq : totalPoints = 6599680 := by
  have h := cum_south N le_rfl
  have hNR : NUM_RINGS = N + N := by simp [NUM_RINGS]; ring
  have hN : N = 1280 := rfl
  rw [hN] at h
  simp only [totalPoints, hNR, hN] at h ⊢
  omega

/-- Ring centre latitude in units of pi: the source computes
`radians(90 - (i + 0.5) * 180 / NUM_RINGS)` and `radians(d) = d*pi/180`,
so dividing the degree value by 180 yields the coordinate in pi units. -/
def lat_of_ring (i : ℕ) : ℚ := (90 - ((i : ℚ) + 1/2) * 180 / NUM_RINGS) / 180

/-- The latitude table of `generate_gaussian_lats` (in units of pi). -/
def generate_gaussian_lats : List ℚ := (List.range NUM_RINGS).map lat_of_ring

/-- Specification of `np.searchsorted(a, v)` (side left) on an
ascending-sorted array: the leftmost insertion index, i.e. the number
of entries strictly below `v`.  numpy's binary search returns exactly
this index whenever `a` is sorted ascending, which is the only way the
programs call it. -/
def searchsorted_left (a : List ℚ) (v : ℚ) : ℕ := a.countP (fun x => decide (x < v))

/-- Ring lookup, from `find_ring`: `np.searchsorted(-lats, -lat)`. -/
def find_ring (lat : ℚ) (lats : List ℚ) : ℕ :=
  searchsorted_left (lats.map (fun x => -x)) (-lat)

/-- Python `int(x)`: truncation toward zero. -/
def pyInt (q : ℚ) : ℤ := if 0 ≤ q then ⌊q⌋ else -⌊-q⌋

/-- Number of rings strictly north of a query latitude, as a rational:
`lat_of_ring i > lat` iff `(i : Q) < ring_threshold lat`. -/
def ring_threshold (lat : ℚ) : ℚ := (2559 - 5120 * lat) / 2

lemma natCast_NUM_RINGS : ((NUM_RINGS : ℕ) : ℚ) = 2560 := by
  norm_num [NUM_RINGS, N]

lemma lat_of_ring_gt_iff (i : ℕ) (lat : ℚ) :
    lat < lat_of_ring i ↔ (i : ℚ) < ring_threshold lat := by
  unfold lat_of_ring ring_threshold
  rw [natCast_NUM_RINGS]
  constructor <;> intro h <;> nlinarith [h]

lemma countP_range_ltQ (T : ℚ) (n : ℕ) :
    (List.range n).countP (fun (i : ℕ) => decide ((i : ℚ) < T)) = min (⌈T⌉.toNat) n := by
  induction n with
  | zero => simp
  | succ n ih =>
      rw [List.range_succ, List.countP_append, ih]
      by_cases h : (n : ℚ) < T
      · have h2 : n < ⌈T⌉.toNat := by
          rw [Int.lt_toNat]
          exact Int.lt_ceil.mpr h
        simp [List.countP_cons, h]
        omega
      · have h2 : ¬ n < ⌈T⌉.toNat := by
          rw [Int.lt_toNat]
          exact fun hc => h (Int.lt_ceil.mp hc)
        simp [List.countP_cons, h]
        omega

/-- Closed form of the ring lookup on the generated latitude table. -/
lemma find_ring_closed (lat : ℚ) :
    find_ring lat generate_gaussian_lats = min (⌈ring_threshold lat⌉.toNat) NUM_RINGS := by
  unfold find_ring searchsorted_left generate_gaussian_lats
  rw [List.countP_map, List.countP_map]
  rw [List.countP_congr (q := fun (i : ℕ) => decide ((i : ℚ) < ring_threshold lat))]
  · rw [countP_range_ltQ]
  · intro i _
    simp only [Function.comp_apply, decide_eq_true_eq, neg_lt_neg_iff]
    exact lat_of_ring_gt_iff i lat

lemma find_ring_le (lat : ℚ) : find_ring lat generate_gaussian_lats ≤ NUM_RINGS := by
  rw [find_ring_closed]; omega

/-- The grid sampler, translated line by line from `get_value`
(`src/scripts/temp-to-png.py`; `get_temp` in `src/test/temp-to-png.py`
is the same function).  Angles are in units of pi, so the source's
`lon_norm / (2*pi) * n_points` becomes `ln / 2 * n_points` and the
`2*pi` added to a negative longitude becomes `2`. -/
def get_value (lat lon : ℚ) (data : List ℚ) (lats : List ℚ) (offsets : List ℕ) : ℚ :=
  let ring := min (find_ring lat lats) (NUM_RINGS - 1)
  let rfp := if ring < N then ring + 1 else NUM_RINGS - ring
  let n_points := 4 * rfp + 16
  let ln := if 0 ≤ lon then lon else lon + 2
  let lon_idx := ((pyInt (ln / 2 * n_points)) % (n_points : ℤ)).toNat
  let idx := offsets.getD ring 0 + lon_idx
  if idx < data.length then data.getD idx 0 else 0

/-- The ring index the sampler uses: `find_ring` clamped to
`NUM_RINGS - 1`, on the generated latitude table. -/
def sample_ring (lat : ℚ) : ℕ :=
  min (find_ring lat generate_gaussian_lats) (NUM_RINGS - 1)

/-- The point count of the sampled ring (the sampler recomputes the
`4 * ring_from_pole + 16` formula). -/
def sample_n_points (lat : ℚ) : ℕ := points_in_ring (sample_ring lat)

/-- Longitude normalised into `[0, 2*pi)` (units of pi: `[0, 2)`),
from `lon_norm = lon if lon >= 0 else lon + 2*pi`. -/
def lon_norm (lon : ℚ) : ℚ := if 0 ≤ lon then lon else lon + 2

/-- The within-ring point index the sampler computes:
`int(lon_norm / (2*pi) * n_points) % n_points`. -/
def sample_lon_idx (lat lon : ℚ) : ℕ :=
  ((pyInt (lon_norm lon / 2 * sample_n_points lat)) % (sample_n_points lat : ℤ)).toNat

/-- The flat index the sampler computes: `offsets[ring] + lon_idx`. -/
def sample_flat_idx (lat lon : ℚ) : ℕ :=
  generate_ring_offsets.getD (sample_ring lat) 0 + sample_lon_idx lat lon

lemma get_value_eq_sample (lat lon : ℚ) (data : List ℚ) :
    get_value lat lon data generate_gaussian_lats generate_ring_offsets
      = if sample_flat_idx lat lon < data.length
          then data.getD (sample_flat_idx lat lon) 0 else 0 := by
  unfold get_value sample_flat_idx sample_lon_idx sample_n_points sample_ring
    lon_norm points_in_ring ring_from_pole
  rfl

lemma sample_ring_lt (lat : ℚ) : sample_ring lat < NUM_RINGS := by
  have : NUM_RINGS - 1 < NUM_RINGS := by simp [NUM_RINGS, N]
  exact lt_of_le_of_lt (min_le_right _ _) this

lemma sample_n_points_pos (lat : ℚ) : 0 < sample_n_points lat := by
  unfold sample_n_points points_in_ring
  omega

lemma sample_lon_idx_lt (lat lon : ℚ) : sample_lon_idx lat lon < sample_n_points lat := by
  unfold sample_lon_idx
  have hpos : (0 : ℤ) < (sample_n_points lat : ℤ) := by
    exact_mod_cast sample_n_points_pos lat
  have h := Int.emod_lt_of_pos (pyInt (lon_norm lon / 2 * sample_n_points lat)) hpos
  omega

lemma generate_ring_offsets_getD (i : ℕ) (h : i < NUM_RINGS) :
    generate_ring_offsets.getD i 0 = cum i := by
  rw [generate_ring_offsets_eq]
  have hlen : i < ((List.range NUM_RINGS).map cum).length := by
    simpa using h
  rw [List.getD_eq_getElem _ _ hlen]
  simp

/-- The flat index of any query is strictly below the total point
count: the sentinel branch of the sampler is unreachable on a
full-length array. -/
lemma sample_flat_idx_lt_totalPoints (lat lon : ℚ) :
    sample_flat_idx lat lon < totalPoints := by
  unfold sample_flat_idx
  rw [generate_ring_offsets_getD _ (sample_ring_lt lat)]
  have h1 : sample_lon_idx lat lon < points_in_ring (sample_ring lat) :=
    sample_lon_idx_lt lat lon
  have h2 : cum (sample_ring lat) + points_in_ring (sample_ring lat)
      = cum (sample_ring lat + 1) := (cum_succ _).symm
  have h3 : cum (sample_ring lat + 1) ≤ cum NUM_RINGS :=
    cum_mono (sample_ring_lt lat)
  unfold totalPoints
  omega

lemma generate_gaussian_lats_getD (i : ℕ) (h : i < NUM_RINGS) :
    generate_gaussian_lats.getD i 0 = lat_of_ring i := by
  unfold generate_gaussian_lats
  have hlen : i < ((List.range NUM_RINGS).map lat_of_ring).length := by simpa using h
  rw [List.getD_eq_getElem _ _ hlen]
  simp

lemma lat_of_ring_strictAnti (i j : ℕ) (h : i < j) : lat_of_ring j < lat_of_ring i := by
  unfold lat_of_ring
  rw [natCast_NUM_RINGS]
  have hq : (i : ℚ) < (j : ℚ) := by exact_mod_cast h
  nlinarith [hq]

lemma ring_threshold_of_ring (i : ℕ) : ring_threshold (lat_of_ring i) = i := by
  unfold ring_threshold lat_of_ring
  rw [natCast_NUM_RINGS]
  ring

lemma find_ring_of_ring (i : ℕ) (h : i < NUM_RINGS) :
    find_ring (lat_of_ring i) generate_gaussian_lats = i := by
  rw [find_ring_closed, ring_threshold_of_ring]
  rw [Int.ceil_natCast]
  simp [Nat.min_eq_left (le_of_lt h)]

lemma find_ring_first_le (lat : ℚ) (h : find_ring lat generate_gaussian_lats < NUM_RINGS) :
    lat_of_ring (find_ring lat generate_gaussian_lats) ≤ lat := by
  rw [find_ring_closed] at h ⊢
  have ht : ⌈ring_threshold lat⌉.toNat < NUM_RINGS := by omega
  have hmin : min (⌈ring_threshold lat⌉.toNat) NUM_RINGS = ⌈ring_threshold lat⌉.toNat := by
    omega
  rw [hmin]
  by_contra hc
  push_neg at hc
  have h2 := (lat_of_ring_gt_iff (⌈ring_threshold lat⌉.toNat) lat).mp hc
  have h3 : ring_threshold lat ≤ ((⌈ring_threshold lat⌉.toNat : ℤ) : ℚ) := by
    calc ring_threshold lat ≤ (⌈ring_threshold lat⌉ : ℚ) := Int.le_ceil _
    _ ≤ ((⌈ring_threshold lat⌉.toNat : ℤ) : ℚ) := by
        exact_mod_cast Int.self_le_toNat _
  push_cast at h3
  linarith

lemma find_ring_gt_before (lat : ℚ) (j : ℕ)
    (hj : j < find_ring lat generate_gaussian_lats) : lat < lat_of_ring j := by
  rw [find_ring_closed] at hj
  have h1 : j < ⌈ring_threshold lat⌉.toNat := by omega
  have h2 : (j : ℤ) < ⌈ring_threshold lat⌉ := by
    exact_mod_cast (Int.lt_toNat).mp h1
  have h3 : (j : ℚ) < ring_threshold lat := by
    exact_mod_cast Int.lt_ceil.mp h2
  exact (lat_of_ring_gt_iff j lat).mpr h3

lemma NUM_RINGS_eq : NUM_RINGS = 2560 := by norm_num [NUM_RINGS, N]

lemma sample_ring_north (lat : ℚ) (h : 1/2 ≤ lat) : sample_ring lat = 0 := by
  unfold sample_ring
  rw [find_ring_closed]
  have hT : ring_threshold lat ≤ 0 := by
    unfold ring_threshold
    linarith
  have hc : ⌈ring_threshold lat⌉ ≤ 0 := Int.ceil_le.mpr (by exact_mod_cast hT)
  have : ⌈ring_threshold lat⌉.toNat = 0 := by omega
  rw [this]
  simp

lemma sample_ring_south (lat : ℚ) (h : lat ≤ -(1/2)) : sample_ring lat = NUM_RINGS - 1 := by
  unfold sample_ring
  rw [find_ring_closed]
  have hT : (2559 : ℚ) < ring_threshold lat := by
    unfold ring_threshold
    linarith
  have hc : (2559 : ℤ) < ⌈ring_threshold lat⌉ := Int.lt_ceil.mpr (by exact_mod_cast hT)
  have h2 : NUM_RINGS ≤ ⌈ring_threshold lat⌉.toNat := by
    rw [NUM_RINGS_eq]
    omega
  rw [NUM_RINGS_eq] at h2 ⊢
  omega

lemma sample_ring_half : sample_ring (1/2) = 0 :=
  sample_ring_north _ le_rfl

lemma sample_ring_neg_half : sample_ring (-(1/2)) = NUM_RINGS - 1 :=
  sample_ring_south _ le_rfl

lemma points_in_ring_zero : points_in_ring 0 = 20 := by decide

lemma points_in_ring_last : points_in_ring (NUM_RINGS - 1) = 20 := by
  rw [NUM_RINGS_eq]
  simp only [points_in_ring, ring_from_pole, NUM_RINGS_eq, N]
  norm_num

lemma sample_n_points_half : sample_n_points (1/2) = 20 := by
  rw [sample_n_points, sample_ring_half, points_in_ring_zero]

lemma sample_n_points_neg_half : sample_n_points (-(1/2)) = 20 := by
  rw [sample_n_points, sample_ring_neg_half, points_in_ring_last]

lemma pyInt_ten : pyInt 10 = 10 := by
  unfold pyInt
  rw [if_pos (by norm_num)]
  norm_num

lemma lon_idx_at_neg_pi (lat : ℚ) (hnp : sample_n_points lat = 20) :
    sample_lon_idx lat (-1) = 10 := by
  unfold sample_lon_idx
  rw [hnp]
  have h1 : lon_norm (-1) = 1 := by
    unfold lon_norm
    rw [if_neg (by norm_num)]
    norm_num
  rw [h1]
  have h2 : (1 : ℚ) / 2 * ((20 : ℕ) : ℚ) = 10 := by push_cast; ring
  rw [h2, pyInt_ten]
  decide

lemma lon_idx_near_pi (lat ε : ℚ) (hnp : sample_n_points lat = 20)
    (h0 : 0 < ε) (h1 : ε ≤ 1/10) : sample_lon_idx lat (1 - ε) = 9 := by
  unfold sample_lon_idx
  rw [hnp]
  have hln : lon_norm (1 - ε) = 1 - ε := by
    unfold lon_norm
    rw [if_pos (by linarith)]
  rw [hln]
  have harg : (1 - ε) / 2 * ((20 : ℕ) : ℚ) = 10 - 10 * ε := by push_cast; ring
  rw [harg]
  have hpy : pyInt (10 - 10 * ε) = 9 := by
    unfold pyInt
    rw [if_pos (by linarith)]
    rw [Int.floor_eq_iff]
    constructor
    · push_cast; linarith
    · push_cast; linarith
  rw [hpy]
  decide

/-- C1: for every query `(lat, lon)` and value array of any length, the
sampler is total and returns either the value at the computed flat
index or the sentinel `0` when that index is not below the array
length; the computed within-ring index is always in range; and at
`lat = ±pi/2` the queries `lon = -pi` and `lon = pi - eps` (with
`0 < eps <= pi/10`, i.e. within one point spacing of the 20-point polar
rings) land on the same ring at point indices 10 and 9 — adjacent,
in-range, never out of bounds.  (Angles in units of pi.) -/
theorem claim_C1 :
    (∀ (lat lon : ℚ) (data : List ℚ),
      get_value lat lon data generate_gaussian_lats generate_ring_offsets
        = if sample_flat_idx lat lon < data.length
            then data.getD (sample_flat_idx lat lon) 0 else 0)
    ∧ (∀ lat lon : ℚ, sample_lon_idx lat lon < sample_n_points lat)
    ∧ (∀ ε : ℚ, 0 < ε → ε ≤ 1/10 →
        (sample_ring (1/2) = 0 ∧ sample_n_points (1/2) = 20
          ∧ sample_lon_idx (1/2) (-1) = 10 ∧ sample_lon_idx (1/2) (1 - ε) = 9)
        ∧ (sample_ring (-(1/2)) = NUM_RINGS - 1 ∧ sample_n_points (-(1/2)) = 20
          ∧ sample_lon_idx (-(1/2)) (-1) = 10
          ∧ sample_lon_idx (-(1/2)) (1 - ε) = 9)) := by
  refine ⟨get_value_eq_sample, sample_lon_idx_lt, ?_⟩
  intro ε h0 h1
  exact ⟨⟨sample_ring_half, sample_n_points_half,
      lon_idx_at_neg_pi _ sample_n_points_half,
      lon_idx_near_pi _ ε sample_n_points_half h0 h1⟩,
    ⟨sample_ring_neg_half, sample_n_points_neg_half,
      lon_idx_at_neg_pi _ sample_n_points_neg_half,
      lon_idx_near_pi _ ε sample_n_points_neg_half h0 h1⟩⟩

/-- Witness for C1 at `lat = 0`, `lon = 0`, the empty array, and
`eps = 1/20`. -/
theorem claim_C1_witness :
    (get_value 0 0 [] generate_gaussian_lats generate_ring_offsets
      = if sample_flat_idx 0 0 < ([] : List ℚ).length
          then ([] : List ℚ).getD (sample_flat_idx 0 0) 0 else 0)
    ∧ sample_lon_idx 0 0 < sample_n_points 0
    ∧ ((0 : ℚ) < 1/20 ∧ (1/20 : ℚ) ≤ 1/10
      ∧ sample_ring (1/2) = 0 ∧ sample_lon_idx (1/2) (1 - 1/20) = 9) :=
  ⟨claim_C1.1 0 0 [], claim_C1.2.1 0 0,
    by norm_num, by norm_num,
    (claim_C1.2.2 (1/20) (by norm_num) (by norm_num)).1.1,
    (claim_C1.2.2 (1/20) (by norm_num) (by norm_num)).1.2.2.2⟩

/-- C2: the offset table built by `generate_ring_offsets` is the
exclusive prefix sum of the per-ring point counts
(`4 * ring_from_pole + 16`), starting at 0, and the total of all ring
point counts — equivalently the last offset plus the last ring's point
count — is 6,599,680. -/
theorem claim_C2 :
    generate_ring_offsets.getD 0 0 = 0
    ∧ (∀ i, i < NUM_RINGS →
        generate_ring_offsets.getD i 0 = ((List.range i).map points_in_ring).sum)
    ∧ ((List.range NUM_RINGS).map points_in_ring).sum = 6599680
    ∧ generate_ring_offsets.getD (NUM_RINGS - 1) 0 + points_in_ring (NUM_RINGS - 1)
        = 6599680 := by
  have hpos : 0 < NUM_RINGS := by rw [NUM_RINGS_eq]; norm_num
  have htot : cum NUM_RINGS = 6599680 := totalPoints_eq
  refine ⟨?_, ?_, htot, ?_⟩
  · rw [generate_ring_offsets_getD 0 hpos, cum_zero]
  · intro i hi
    rw [generate_ring_offsets_getD i hi]
    rfl
  · have hlast : NUM_RINGS - 1 < NUM_RINGS := by omega
    rw [generate_ring_offsets_getD _ hlast]
    have hsucc : NUM_RINGS - 1 + 1 = NUM_RINGS := by omega
    have := cum_succ (NUM_RINGS - 1)
    rw [hsucc] at this
    omega

/-- Witness for C2 at ring index 3. -/
theorem claim_C2_witness :
    3 < NUM_RINGS
    ∧ generate_ring_offsets.getD 3 0 = ((List.range 3).map points_in_ring).sum :=
  ⟨by rw [NUM_RINGS_eq]; norm_num, claim_C2.2.1 3 (by rw [NUM_RINGS_eq]; norm_num)⟩

/-- C3: the ring-locate step as used by `get_value` is clamped to
`[0, NUM_RINGS - 1]`; `find_ring` returns the first index whose ring
latitude is `<= lat` (every earlier ring is strictly north of the
query, and the found ring itself is `<= lat` whenever the query is not
south of every ring); and out-of-range latitudes (beyond `±pi/2`)
clamp to the nearest pole ring instead of failing. -/
theorem claim_C3 (lat : ℚ) :
    sample_ring lat < NUM_RINGS
    ∧ (∀ j, j < find_ring lat generate_gaussian_lats →
        lat < generate_gaussian_lats.getD j 0)
    ∧ (find_ring lat generate_gaussian_lats < NUM_RINGS →
        generate_gaussian_lats.getD (find_ring lat generate_gaussian_lats) 0 ≤ lat)
    ∧ (1/2 ≤ lat → sample_ring lat = 0)
    ∧ (lat ≤ -(1/2) → sample_ring lat = NUM_RINGS - 1) := by
  refine ⟨sample_ring_lt lat, ?_, ?_, sample_ring_north lat, sample_ring_south lat⟩
  · intro j hj
    have hjN : j < NUM_RINGS := lt_of_lt_of_le hj (find_ring_le lat)
    rw [generate_gaussian_lats_getD j hjN]
    exact find_ring_gt_before lat j hj
  · intro h
    rw [generate_gaussian_lats_getD _ h]
    exact find_ring_first_le lat h

/-- Witness for C3: the ring-centre query `lat_of_ring 1` (whose
locate result is ring 1) exercises both the strictly-north and the
first-`<=` conjuncts, and `lat = 1`, `lat = -1` exercise the pole
clamps. -/
theorem claim_C3_witness :
    (0 < find_ring (lat_of_ring 1) generate_gaussian_lats
      ∧ lat_of_ring 1 < generate_gaussian_lats.getD 0 0)
    ∧ (find_ring (lat_of_ring 1) generate_gaussian_lats < NUM_RINGS
      ∧ generate_gaussian_lats.getD (find_ring (lat_of_ring 1) generate_gaussian_lats) 0
          ≤ lat_of_ring 1)
    ∧ ((1 : ℚ)/2 ≤ 1 ∧ sample_ring 1 = 0)
    ∧ ((-1 : ℚ) ≤ -(1/2) ∧ sample_ring (-1) = NUM_RINGS - 1) := by
  have h1N : 1 < NUM_RINGS := by rw [NUM_RINGS_eq]; norm_num
  have hfr : find_ring (lat_of_ring 1) generate_gaussian_lats = 1 :=
    find_ring_of_ring 1 h1N
  refine ⟨⟨?_, ?_⟩, ⟨?_, ?_⟩, ⟨by norm_num, ?_⟩, ⟨by norm_num, ?_⟩⟩
  · rw [hfr]; norm_num
  · exact (claim_C3 (lat_of_ring 1)).2.1 0 (by rw [hfr]; norm_num)
  · rw [hfr]; exact h1N
  · exact (claim_C3 (lat_of_ring 1)).2.2.1 (by rw [hfr]; exact h1N)
  · exact (claim_C3 1).2.2.2.1 (by norm_num)
  · exact (claim_C3 (-1)).2.2.2.2 (by norm_num)

/-- C4: the latitude table of `generate_gaussian_lats` is strictly
decreasing, and locating a ring's own centre latitude returns exactly
that ring's index (GridTopology / RingLocator self-consistency). -/
theorem claim_C4 :
    (∀ i j, i < j → j < NUM_RINGS →
      generate_gaussian_lats.getD j 0 < generate_gaussian_lats.getD i 0)
    ∧ (∀ i, i < NUM_RINGS →
      find_ring (generate_gaussian_lats.getD i 0) generate_gaussian_lats = i) := by
  constructor
  · intro i j hij hj
    rw [generate_gaussian_lats_getD i (lt_trans hij hj), generate_gaussian_lats_getD j hj]
    exact lat_of_ring_strictAnti i j hij
  · intro i hi
    rw [generate_gaussian_lats_getD i hi]
    exact find_ring_of_ring i hi

/-- Witness for C4 at rings 0 and 1. -/
theorem claim_C4_witness :
    (0 < 1 ∧ 1 < NUM_RINGS
      ∧ generate_gaussian_lats.getD 1 0 < generate_gaussian_lats.getD 0 0)
    ∧ find_ring (generate_gaussian_lats.getD 1 0) generate_gaussian_lats = 1 := by
  have h1N : 1 < NUM_RINGS := by rw [NUM_RINGS_eq]; norm_num
  exact ⟨⟨by norm_num, h1N, claim_C4.1 0 1 (by norm_num) h1N⟩, claim_C4.2 1 h1N⟩

lemma get_value_full (lat lon : ℚ) (data : List ℚ) (h : data.length = totalPoints) :
    get_value lat lon data generate_gaussian_lats generate_ring_offsets
      = data.getD (sample_flat_idx lat lon) 0 := by
  rw [get_value_eq_sample, if_pos]
  rw [h]
  exact sample_flat_idx_lt_totalPoints lat lon

/-- C10: on a full-length value array (6,599,680 entries), the flat
index computed by the sampler is strictly below the total point count
for every query, so the zero-sentinel branch is unreachable and the
sampler returns the value of an actual grid point. -/
theorem claim_C10 (lat lon : ℚ) (data : List ℚ) (h : data.length = totalPoints) :
    sample_flat_idx lat lon < totalPoints
    ∧ get_value lat lon data generate_gaussian_lats generate_ring_offsets
        = data.getD (sample_flat_idx lat lon) 0 :=
  ⟨sample_flat_idx_lt_totalPoints lat lon, get_value_full lat lon data h⟩

/-- Witness for C10 on an all-zero full-length array at the query
`(0, 0)`. -/
theorem claim_C10_witness :
    (List.replicate 6599680 (0 : ℚ)).length = totalPoints
    ∧ (sample_flat_idx 0 0 < totalPoints
      ∧ get_value 0 0 (List.replicate 6599680 (0 : ℚ))
          generate_gaussian_lats generate_ring_offsets
        = (List.replicate 6599680 (0 : ℚ)).getD (sample_flat_idx 0 0) 0) := by
  have hlen : (List.replicate 6599680 (0 : ℚ)).length = totalPoints := by
    rw [totalPoints_eq, List.length_replicate]
  exact ⟨hlen, claim_C10 0 0 _ hlen⟩

/-- Raster width of both converters. -/
def WIDTH : ℕ := 1024

/-- Raster height of both converters. -/
def HEIGHT : ℕ := 512

/-- Latitude of raster row `y` (units of pi), from
`lat = (0.5 - y / HEIGHT) * pi`. -/
def pixel_lat (y : ℕ) : ℚ := 1/2 - (y : ℚ) / HEIGHT

/-- Longitude of raster column `x` (units of pi), from
`lon = (x / WIDTH) * 2 * pi - pi`. -/
def pixel_lon (x : ℕ) : ℚ := (x : ℚ) / WIDTH * 2 - 1

/-- Four-segment hue colormap, translated from `temp_to_rgb`
(`src/test/temp-to-png.py`): clamp `t = (temp + 50) / 100` to `[0, 1]`,
pick the segment, scale each channel by truncation (`int(c * 255)`). -/
def temp_to_rgb (temp_c : ℚ) : ℤ × ℤ × ℤ :=
  let t := max 0 (min 1 ((temp_c + 50) / 100))
  let rgb : ℚ × ℚ × ℚ :=
    if t < 1/4 then (0, t * 4, 1)
    else if t < 1/2 then (0, 1, 1 - (t - 1/4) * 4)
    else if t < 3/4 then ((t - 1/2) * 4, 1, 0)
    else (1, 1 - (t - 3/4) * 4, 0)
  (pyInt (rgb.1 * 255), pyInt (rgb.2.1 * 255), pyInt (rgb.2.2 * 255))

/-- One pixel of the hue-mode render loop of `src/test/temp-to-png.py`:
sample the grid at the pixel centre and colorize immediately. -/
def hue_pixel (data : List ℚ) (x y : ℕ) : ℤ × ℤ × ℤ :=
  temp_to_rgb
    (get_value (pixel_lat y) (pixel_lon x) data generate_gaussian_lats generate_ring_offsets)

lemma getD_replicate (n i : ℕ) (c : ℚ) (h : i < n) :
    (List.replicate n c).getD i 0 = c := by
  have hlen : i < (List.replicate n c).length := by simpa using h
  rw [List.getD_eq_getElem _ _ hlen]
  simp

lemma pyInt_zero : pyInt 0 = 0 := by
  unfold pyInt
  norm_num

lemma temp_to_rgb_55 : temp_to_rgb 55 = (255, 0, 0) := by
  unfold temp_to_rgb
  have ht : max 0 (min 1 (((55 : ℚ) + 50) / 100)) = 1 := by norm_num
  rw [ht]
  norm_num [pyInt]

/-- C5: with the full-length uniform 55.0 field, the hue-mode
reprojection to the 1024x512 raster yields, at every pixel, the
colormap value at `t = clamp((55+50)/100, 0, 1) = 1`, which is pure
red `(255, 0, 0)`. -/
theorem claim_C5 (x y : ℕ) :
    hue_pixel (List.replicate 6599680 55) x y = (255, 0, 0) := by
  unfold hue_pixel
  have hlen : (List.replicate 6599680 (55 : ℚ)).length = totalPoints := by
    rw [totalPoints_eq, List.length_replicate]
  rw [get_value_full _ _ _ hlen, getD_replicate]
  · exact temp_to_rgb_55
  · have := sample_flat_idx_lt_totalPoints (pixel_lat y) (pixel_lon x)
    rw [totalPoints_eq] at this
    exact this

/-- np.min over a nonempty array, modelled as a head-seeded fold. -/
def np_min : List ℚ → ℚ
  | [] => 0
  | x :: xs => xs.foldl min x

/-- np.max over a nonempty array, modelled as a head-seeded fold. -/
def np_max : List ℚ → ℚ
  | [] => 0
  | x :: xs => xs.foldl max x

/-- Normalization denominator of the grayscale pass, from
`data_range = data_max - data_min if data_max > data_min else 1`. -/
def data_range (mn mx : ℚ) : ℚ := if mx > mn then mx - mn else 1

/-- One pixel of grayscale pass 2, from
`gray = int(255 * (val - data_min) / data_range)` then
`gray = max(0, min(255, gray))`. -/
def gray_of (mn rng v : ℚ) : ℤ := max 0 (min 255 (pyInt (255 * (v - mn) / rng)))

/-- Grayscale pass 2 over the whole reprojected buffer. -/
def grayscale_pass2 (buf : List ℚ) : List ℤ :=
  buf.map (gray_of (np_min buf) (data_range (np_min buf) (np_max buf)))

/-- Pass 1 of the grayscale converter for a `w x h` raster (row-major
flattened): sample the grid at every pixel centre. -/
def reproject_values (w h : ℕ) (data : List ℚ) : List ℚ :=
  ((List.range h).map (fun (y : ℕ) =>
    (List.range w).map (fun (x : ℕ) =>
      get_value (1/2 - (y : ℚ) / h) ((x : ℚ) / w * 2 - 1) data
        generate_gaussian_lats generate_ring_offsets))).flatten

lemma foldl_min_le (l : List ℚ) : ∀ a : ℚ, l.foldl min a ≤ a := by
  induction l with
  | nil => intro a; simp
  | cons x xs ih =>
      intro a
      simp only [List.foldl_cons]
      exact le_trans (ih (min a x)) (min_le_left a x)

lemma foldl_min_le_mem (l : List ℚ) : ∀ (a v : ℚ), v ∈ l → l.foldl min a ≤ v := by
  induction l with
  | nil => intro a v hv; cases hv
  | cons x xs ih =>
      intro a v hv
      simp only [List.foldl_cons]
      rcases List.mem_cons.mp hv with h | h
      · subst h
        exact le_trans (foldl_min_le xs (min a v)) (min_le_right a v)
      · exact ih (min a x) v h

lemma le_foldl_max (l : List ℚ) : ∀ a : ℚ, a ≤ l.foldl max a := by
  induction l with
  | nil => intro a; simp
  | cons x xs ih =>
      intro a
      simp only [List.foldl_cons]
      exact le_trans (le_max_left a x) (ih (max a x))

lemma le_foldl_max_mem (l : List ℚ) : ∀ (a v : ℚ), v ∈ l → v ≤ l.foldl max a := by
  induction l with
  | nil => intro a v hv; cases hv
  | cons x xs ih =>
      intro a v hv
      simp only [List.foldl_cons]
      rcases List.mem_cons.mp hv with h | h
      · subst h
        exact le_trans (le_max_right a v) (le_foldl_max xs (max a v))
      · exact ih (max a x) v h

lemma np_min_le_mem (buf : List ℚ) (v : ℚ) (hv : v ∈ buf) : np_min buf ≤ v := by
  cases buf with
  | nil => cases hv
  | cons x xs =>
      rcases List.mem_cons.mp hv with h | h
      · subst h; exact foldl_min_le xs v
      · exact foldl_min_le_mem xs x v h

lemma le_np_max_mem (buf : List ℚ) (v : ℚ) (hv : v ∈ buf) : v ≤ np_max buf := by
  cases buf with
  | nil => cases hv
  | cons x xs =>
      rcases List.mem_cons.mp hv with h | h
      · subst h; exact le_foldl_max xs v
      · exact le_foldl_max_mem xs x v h

lemma get_value_uniform (lat lon c : ℚ) :
    get_value lat lon (List.replicate totalPoints c)
      generate_gaussian_lats generate_ring_offsets = c := by
  rw [get_value_full lat lon _ (List.length_replicate _ _)]
  exact getD_replicate _ _ _ (sample_flat_idx_lt_totalPoints lat lon)

lemma flatten_replicate (h w : ℕ) (c : ℚ) :
    (List.replicate h (List.replicate w c)).flatten = List.replicate (h * w) c := by
  induction h with
  | zero => simp
  | succ k ih =>
      rw [List.replicate_succ, List.flatten_cons, ih]
      rw [show (k + 1) * w = w + k * w by ring, List.replicate_add]

lemma reproject_uniform (c : ℚ) (w h : ℕ) :
    reproject_values w h (List.replicate totalPoints c) = List.replicate (h * w) c := by
  unfold reproject_values
  simp only [get_value_uniform, List.map_const', List.length_range]
  exact flatten_replicate h w c

lemma np_min_replicate (n : ℕ) (c : ℚ) (h : 0 < n) : np_min (List.replicate n c) = c := by
  cases n with
  | zero => omega
  | succ k =>
      rw [List.replicate_succ]
      unfold np_min
      have : ∀ m : ℕ, (List.replicate m c).foldl min c = c := by
        intro m
        induction m with
        | zero => rfl
        | succ j ih => rw [List.replicate_succ, List.foldl_cons, min_self]; exact ih
      exact this k

lemma np_max_replicate (n : ℕ) (c : ℚ) (h : 0 < n) : np_max (List.replicate n c) = c := by
  cases n with
  | zero => omega
  | succ k =>
      rw [List.replicate_succ]
      unfold np_max
      have : ∀ m : ℕ, (List.replicate m c).foldl max c = c := by
        intro m
        induction m with
        | zero => rfl
        | succ j ih => rw [List.replicate_succ, List.foldl_cons, max_self]; exact ih
      exact this k

/-- C6: in grayscale mode, a constant reprojected buffer (observed max
equals observed min) makes the normalization substitute the unit range
instead of dividing by zero, and pass 2 then maps every buffer value to
the gray level `int(255 * (val - min) / range)` clamped to `[0, 255]`,
i.e. `0` everywhere; and a uniform input field over any raster size
does produce such a constant buffer. -/
theorem claim_C6 :
    (∀ buf : List ℚ, buf ≠ [] → np_min buf = np_max buf →
      data_range (np_min buf) (np_max buf) = 1
        ∧ grayscale_pass2 buf = List.replicate buf.length 0)
    ∧ (∀ (c : ℚ) (w h : ℕ),
      reproject_values w h (List.replicate totalPoints c) = List.replicate (h * w) c
        ∧ (0 < h * w →
          np_min (reproject_values w h (List.replicate totalPoints c))
            = np_max (reproject_values w h (List.replicate totalPoints c)))) := by
  constructor
  · intro buf hne heq
    have hrange : data_range (np_min buf) (np_max buf) = 1 := by
      unfold data_range
      rw [if_neg]
      rw [heq]
      exact lt_irrefl _
    refine ⟨hrange, ?_⟩
    unfold grayscale_pass2
    rw [hrange]
    have hconst : ∀ v ∈ buf, gray_of (np_min buf) 1 v = 0 := by
      intro v hv
      have h1 : np_min buf ≤ v := np_min_le_mem buf v hv
      have h2 : v ≤ np_max buf := le_np_max_mem buf v hv
      have hveq : v = np_min buf := le_antisymm (heq ▸ h2) h1
      unfold gray_of
      rw [hveq]
      simp [pyInt_zero]
    rw [List.eq_replicate_iff]
    refine ⟨by simp, ?_⟩
    intro b hb
    rcases List.mem_map.mp hb with ⟨v, hv, hbv⟩
    rw [← hbv]
    exact hconst v hv
  · intro c w h
    refine ⟨reproject_uniform c w h, ?_⟩
    intro hpos
    rw [reproject_uniform c w h, np_min_replicate _ _ hpos, np_max_replicate _ _ hpos]

/-- Witness for C6 on the singleton constant buffer `[5]` and the
uniform field over a 1x1 raster. -/
theorem claim_C6_witness :
    (([(5 : ℚ)] ≠ [] ∧ np_min [(5 : ℚ)] = np_max [(5 : ℚ)])
      ∧ data_range (np_min [(5 : ℚ)]) (np_max [(5 : ℚ)]) = 1
      ∧ grayscale_pass2 [(5 : ℚ)] = List.replicate 1 0)
    ∧ (0 < 1 * 1
      ∧ np_min (reproject_values 1 1 (List.replicate totalPoints 7))
          = np_max (reproject_values 1 1 (List.replicate totalPoints 7))) := by
  have h1 : ([(5 : ℚ)] : List ℚ) ≠ [] := by simp
  have h2 : np_min [(5 : ℚ)] = np_max [(5 : ℚ)] := rfl
  have h3 := claim_C6.1 [(5 : ℚ)] h1 h2
  have h4 := (claim_C6.2 7 1 1).2 (by norm_num)
  exact ⟨⟨⟨h1, h2⟩, h3.1, h3.2⟩, by norm_num, h4⟩

/-- Maximum cyclone wind speed (m/s), from `max_wind=25.0`. -/
def max_wind : ℚ := 25

/-- Cyclone eye radius in radians, from `core_radius=0.1`. -/
def core_radius : ℚ := 1/10

/-- Cyclone outer influence radius in radians, from `outer_radius=0.8`. -/
def outer_radius : ℚ := 4/5

/-- Inward spiral fraction, from `radial_strength = 0.3`. -/
def radial_strength : ℚ := 3/10

/-- Three-zone radial speed profile of `generate_cyclone`: linear ramp
inside the core, linear decay between core and outer radius, zero
beyond. -/
def cyclone_speed (dist : ℚ) : ℚ :=
  if dist < core_radius then max_wind * (dist / core_radius)
  else if dist < outer_radius then
    max_wind * (1 - (dist - core_radius) / (outer_radius - core_radius))
  else 0

/-- Guarded denominator, from `dist_safe = np.maximum(dist, 1e-6)`. -/
def dist_safe (dist : ℚ) : ℚ := max dist (1/1000000)

/-- U (east-west) wind component of `generate_cyclone` at a point with
latitude offset `dlat`, scaled longitude offset `dls` and distance
`dist` from the centre: `speed * (tang_lon + 0.3 * rad_lon)` with
`tang_lon = dlat / dist_safe` and `rad_lon = -dls / dist_safe`. -/
def cyclone_u (dlat dls dist : ℚ) : ℚ :=
  cyclone_speed dist
    * (dlat / dist_safe dist + radial_strength * (-dls / dist_safe dist))

/-- V (north-south) wind component: `speed * (tang_lat + 0.3 * rad_lat)`
with `tang_lat = -dls / dist_safe` and `rad_lat = -dlat / dist_safe`. -/
def cyclone_v (dlat dls dist : ℚ) : ℚ :=
  cyclone_speed dist
    * (-dls / dist_safe dist + radial_strength * (-dlat / dist_safe dist))

/-- C7: the radial speed profile is continuous at the core boundary —
at `dist = core_radius` both the inside-core and the between-zone
formulas evaluate to `max_wind` (and so does `cyclone_speed` itself);
at the exact centre (`dlat = dls = dist = 0`) the speed and both wind
components are zero and the guarded denominator is strictly positive
(no NaN/Inf possible, exact arithmetic aside); beyond `outer_radius`
the speed is zero. -/
theorem claim_C7 :
    (max_wind * (core_radius / core_radius) = max_wind
      ∧ max_wind * (1 - (core_radius - core_radius) / (outer_radius - core_radius))
          = max_wind
      ∧ cyclone_speed core_radius = max_wind)
    ∧ (cyclone_speed 0 = 0 ∧ cyclone_u 0 0 0 = 0 ∧ cyclone_v 0 0 0 = 0)
    ∧ (∀ d : ℚ, 0 ≤ d → 0 < dist_safe d)
    ∧ (∀ d : ℚ, outer_radius ≤ d → cyclone_speed d = 0) := by
  refine ⟨⟨?_, ?_, ?_⟩, ⟨?_, ?_, ?_⟩, ?_, ?_⟩
  · norm_num [max_wind, core_radius]
  · norm_num [max_wind, core_radius, outer_radius]
  · unfold cyclone_speed
    rw [if_neg (lt_irrefl _), if_pos (by norm_num [core_radius, outer_radius])]
    norm_num [max_wind, core_radius, outer_radius]
  · unfold cyclone_speed
    rw [if_pos (by norm_num [core_radius])]
    norm_num
  · unfold cyclone_u cyclone_speed
    rw [if_pos (by norm_num [core_radius])]
    norm_num
  · unfold cyclone_v cyclone_speed
    rw [if_pos (by norm_num [core_radius])]
    norm_num
  · intro d hd
    unfold dist_safe
    have : (0 : ℚ) < 1/1000000 := by norm_num
    exact lt_of_lt_of_le this (le_max_right _ _)
  · intro d hd
    unfold cyclone_speed
    rw [if_neg, if_neg]
    · exact not_lt.mpr hd
    · exact not_lt.mpr (le_trans (by norm_num [core_radius, outer_radius]) hd)

/-- Witness for C7 at `d = 0` (guard positivity) and `d = 1` (beyond
the outer radius). -/
theorem claim_C7_witness :
    ((0 : ℚ) ≤ 0 ∧ 0 < dist_safe 0)
    ∧ (outer_radius ≤ (1 : ℚ) ∧ cyclone_speed 1 = 0) :=
  ⟨⟨le_rfl, claim_C7.2.2.1 0 le_rfl⟩,
    ⟨by norm_num [outer_radius],
      claim_C7.2.2.2 1 (by norm_num [outer_radius])⟩⟩

noncomputable section

/-- Base pressure in Pa, from `BASE_PRESSURE = 101200.0`. -/
def BASE_PRESSURE : ℝ := 101200

/-- Low-centre target pressure in Pa, from `LOW_PRESSURE = 97600.0`. -/
def LOW_PRESSURE : ℝ := 97600

/-- High-centre target pressure in Pa, from `HIGH_PRESSURE = 104800.0`. -/
def HIGH_PRESSURE : ℝ := 104800

/-- Influence radius in radians, from `INFLUENCE_RADIUS = 0.5`. -/
def INFLUENCE_RADIUS : ℝ := 1/2

/-- Gaussian width, from `sigma = INFLUENCE_RADIUS / 2`. -/
def sigma : ℝ := INFLUENCE_RADIUS / 2

/-- Low centre at 10 deg N, 10 deg E, converted by `np.radians`. -/
def low_lat_rad : ℝ := 10 * Real.pi / 180

/-- Longitude of the low centre in radians. -/
def low_lon_rad : ℝ := 10 * Real.pi / 180

/-- High centre at 10 deg S, 10 deg W, converted by `np.radians`. -/
def high_lat_rad : ℝ := -10 * Real.pi / 180

/-- Longitude of the high centre in radians. -/
def high_lon_rad : ℝ := -10 * Real.pi / 180

/-- Antipodal mirror of the low centre: `lat -> -lat`. -/
def low_lat_mirror : ℝ := -low_lat_rad

/-- Antipodal mirror of the low centre: `lon -> lon + pi`. -/
def low_lon_mirror : ℝ := low_lon_rad + Real.pi

/-- Antipodal mirror of the high centre: `lat -> -lat`. -/
def high_lat_mirror : ℝ := -high_lat_rad

/-- Antipodal mirror of the high centre: `lon -> lon + pi`. -/
def high_lon_mirror : ℝ := high_lon_rad + Real.pi

/-- Longitude-difference wrap of `angular_distance`: subtract `2*pi`
when above `pi`, then add `2*pi` when below `-pi` (two `np.where`
passes applied in sequence). -/
def wrap_dlon (d : ℝ) : ℝ :=
  let d1 := if d > Real.pi then d - 2 * Real.pi else d
  if d1 < -Real.pi then d1 + 2 * Real.pi else d1

/-- Equirectangular angular distance of `generate_pressure`:
`sqrt(dlat^2 + (dlon_wrapped * cos lat1)^2)`. -/
def angular_distance (lat1 lon1 lat2 lon2 : ℝ) : ℝ :=
  Real.sqrt ((lat1 - lat2) ^ 2 + (wrap_dlon (lon1 - lon2) * Real.cos lat1) ^ 2)

/-- Gaussian falloff, from `np.exp(-0.5 * (dist / sigma) ** 2)`. -/
def gaussian_influence (d : ℝ) : ℝ := Real.exp (-(1/2) * (d / sigma) ^ 2)

/-- Pre-noise pressure at a grid point, translated from
`generate_pressure`: base plus the low and high anomalies, each anomaly
being the target-minus-base delta times the summed influences of the
named centre and its antipodal mirror. -/
def pressure_pre (lat lon : ℝ) : ℝ :=
  BASE_PRESSURE
    + (LOW_PRESSURE - BASE_PRESSURE)
        * (gaussian_influence (angular_distance lat lon low_lat_rad low_lon_rad)
          + gaussian_influence (angular_distance lat lon low_lat_mirror low_lon_mirror))
    + (HIGH_PRESSURE - BASE_PRESSURE)
        * (gaussian_influence (angular_distance lat lon high_lat_rad high_lon_rad)
          + gaussian_influence (angular_distance lat lon high_lat_mirror high_lon_mirror))

/-- Clamp of `np.clip(pressure, 97600, 104800)`. -/
def np_clip (x lo hi : ℝ) : ℝ := min (max x lo) hi

/-- Final per-point pressure: pre-noise value plus that point's noise
sample, clamped to the shader range.  The noise is the seeded
`np.random.uniform(-100, 100)` stream; its algorithm lives outside
this repository, so it is abstracted as an arbitrary real (the range
bound below holds for every noise value, a fortiori for the seeded
stream). -/
def pressure_final (lat lon noise : ℝ) : ℝ :=
  np_clip (pressure_pre lat lon + noise) 97600 104800

end

/-- C8: the pre-noise pressure decomposes as the base pressure plus
four Gaussian-decayed anomalies `(target - base) * exp(-(1/2) * (d / sigma)^2)`
with `sigma = INFLUENCE_RADIUS / 2` — one per named centre (low, high)
and one per antipodal mirror; the longitude-difference wrap lands in
`(-pi, pi]` on its whole working domain except the single point `-pi`
(kept fixed); and after adding any noise value the clamped output lies
in `[97600, 104800]` Pa. -/
theorem claim_C8 (lat lon noise : ℝ) :
    (pressure_pre lat lon
      = BASE_PRESSURE
        + (LOW_PRESSURE - BASE_PRESSURE)
            * gaussian_influence (angular_distance lat lon low_lat_rad low_lon_rad)
        + (LOW_PRESSURE - BASE_PRESSURE)
            * gaussian_influence (angular_distance lat lon low_lat_mirror low_lon_mirror)
        + (HIGH_PRESSURE - BASE_PRESSURE)
            * gaussian_influence (angular_distance lat lon high_lat_rad high_lon_rad)
        + (HIGH_PRESSURE - BASE_PRESSURE)
            * gaussian_influence (angular_distance lat lon high_lat_mirror high_lon_mirror))
    ∧ sigma = INFLUENCE_RADIUS / 2
    ∧ (∀ d : ℝ, -(3 * Real.pi) < d → d ≤ 3 * Real.pi → d ≠ -Real.pi →
        -Real.pi < wrap_dlon d ∧ wrap_dlon d ≤ Real.pi)
    ∧ 97600 ≤ pressure_final lat lon noise
    ∧ pressure_final lat lon noise ≤ 104800 := by
  have hpi : (0 : ℝ) < Real.pi := Real.pi_pos
  refine ⟨by unfold pressure_pre; ring, rfl, ?_, ?_, ?_⟩
  · intro d h1 h2 h3
    unfold wrap_dlon
    by_cases hgt : d > Real.pi
    · rw [if_pos hgt, if_neg (by linarith)]
      constructor <;> linarith
    · rw [if_neg hgt]
      push_neg at hgt
      by_cases hlt : d < -Real.pi
      · rw [if_pos hlt]
        constructor <;> linarith
      · rw [if_neg hlt]
        push_neg at hlt
        have : -Real.pi < d := lt_of_le_of_ne hlt (Ne.symm h3)
        exact ⟨this, hgt⟩
  · unfold pressure_final np_clip
    exact le_min (le_trans (le_refl _) (le_max_right _ _)) (by norm_num)
  · unfold pressure_final np_clip
    exact min_le_right _ _

/-- Witness for C8's wrap conjunct at `d = 0` (with `lat = lon = 0`
and zero noise). -/
theorem claim_C8_witness :
    (-(3 * Real.pi) < (0 : ℝ) ∧ (0 : ℝ) ≤ 3 * Real.pi ∧ (0 : ℝ) ≠ -Real.pi)
    ∧ (-Real.pi < wrap_dlon 0 ∧ wrap_dlon 0 ≤ Real.pi) := by
  have hpi : (0 : ℝ) < Real.pi := Real.pi_pos
  have h1 : -(3 * Real.pi) < (0 : ℝ) := by linarith
  have h2 : (0 : ℝ) ≤ 3 * Real.pi := by linarith
  have h3 : (0 : ℝ) ≠ -Real.pi := by
    intro h
    linarith [h.le, h.ge]
  exact ⟨⟨h1, h2, h3⟩, (claim_C8 0 0 0).2.2.1 0 h1 h2 h3⟩

/-- Output stream a message can be printed to. -/
inductive OutStream
  | stdout
  | stderr
  deriving DecidableEq

/-- Result of the argv dispatch of `main`: either print usage and exit,
or run the conversion with an input and an output path. -/
inductive CliResult
  | usage (stream : OutStream) (exitCode : ℕ)
  | run (input output : List Char)
  deriving DecidableEq

/-- Python `str.replace` (all non-overlapping occurrences, scanned left
to right), by fuel recursion; a fuel of `s.length` always suffices
because every step consumes at least one character. -/
def replaceFuel (pat rep : List Char) : ℕ → List Char → List Char
  | _, [] => []
  | 0, s => s
  | fuel + 1, c :: rest =>
    if pat ≠ [] ∧ pat.isPrefixOf (c :: rest) then
      rep ++ replaceFuel pat rep fuel (List.drop pat.length (c :: rest))
    else c :: replaceFuel pat rep fuel rest

/-- Python `s.replace(pat, rep)` for a nonempty pattern. -/
def pyReplace (s pat rep : List Char) : List Char := replaceFuel pat rep s.length s

/-- The `.bin` extension the converters substitute. -/
def binExt : List Char := ".bin".toList

/-- The `.png` extension the converters substitute. -/
def pngExt : List Char := ".png".toList

/-- The argv dispatch of `main` (`src/scripts/temp-to-png.py` and
`src/test/temp-to-png.py` are identical here): with fewer than two
argv entries, print the usage line — via a plain Python `print`, i.e.
to standard output — and `sys.exit(1)`; otherwise the input is
`argv[1]` and the output is `argv[2]` when given, else
`argv[1].replace('.bin', '.png')`. -/
def cli_parse (argv : List (List Char)) : CliResult :=
  if argv.length < 2 then CliResult.usage OutStream.stdout 1
  else CliResult.run (argv.getD 1 [])
    (if 2 < argv.length then argv.getD 2 []
      else pyReplace (argv.getD 1 []) binExt pngExt)

/-- Output-path rule as the spec words it (suffix-only replacement):
modelled from the spec sentence "output path defaults to replacing the
input's `.bin` suffix with `.png`", for comparison against the code's
replace-all behaviour. -/
def spec_default_output (input : List Char) : List Char :=
  if binExt.isSuffixOf input then List.take (input.length - 4) input ++ pngExt
  else input

/-- Counterexample for C9: the missing-input usage message goes to
standard output, not standard error; and on the input `a.bin.bin` the
code's default output path is `a.png.png` (every `.bin` occurrence
replaced) while the claimed suffix replacement would give `a.bin.png`. -/
theorem claim_C9_counterexample :
    (cli_parse [("prog".toList)] = CliResult.usage OutStream.stdout 1
      ∧ OutStream.stdout ≠ OutStream.stderr)
    ∧ (cli_parse [("prog".toList), ("a.bin.bin".toList)]
        = CliResult.run ("a.bin.bin".toList) ("a.png.png".toList)
      ∧ spec_default_output ("a.bin.bin".toList) = ("a.bin.png".toList)
      ∧ ("a.png.png".toList : List Char) ≠ ("a.bin.png".toList)) := by
  refine ⟨⟨?_, ?_⟩, ⟨?_, ?_, ?_⟩⟩ <;> decide

/-- C9 (amended): with no input path the tool prints the usage message
to standard output and exits with the non-zero status 1; with an input
path and no output path, the output defaults to the input with every
occurrence of `.bin` replaced by `.png` (which is exactly the claimed
suffix replacement whenever `.bin` occurs only as a suffix, as in
`foo.bin -> foo.png`); an explicit second argument is used verbatim. -/
theorem claim_C9_amended :
    (∀ argv : List (List Char), argv.length < 2 →
      cli_parse argv = CliResult.usage OutStream.stdout 1 ∧ (1 : ℕ) ≠ 0)
    ∧ (∀ prog input : List Char,
      cli_parse [prog, input] = CliResult.run input (pyReplace input binExt pngExt))
    ∧ (∀ prog input output : List Char,
      cli_parse [prog, input, output] = CliResult.run input output)
    ∧ (cli_parse [("prog".toList), ("foo.bin".toList)]
        = CliResult.run ("foo.bin".toList) ("foo.png".toList)
      ∧ spec_default_output ("foo.bin".toList) = ("foo.png".toList)) := by
  refine ⟨?_, ?_, ?_, by decide, by decide⟩
  · intro argv h
    unfold cli_parse
    rw [if_pos h]
    exact ⟨rfl, by norm_num⟩
  · intro prog input
    unfold cli_parse
    norm_num
  · intro prog input output
    unfold cli_parse
    norm_num

/-- Witness for C9's amended usage conjunct at the empty argv. -/
theorem claim_C9_amended_witness :
    ([] : List (List Char)).length < 2
    ∧ cli_parse [] = CliResult.usage OutStream.stdout 1 ∧ (1 : ℕ) ≠ 0 := by
  have h := claim_C9_amended.1 [] (by norm_num)
  exact ⟨by norm_num, h.1, h.2⟩

end Zero
